import Mathlib

/-!
Verification development for the normalization and chunked-archive storage
subsystem of `spacious_corpus`.

Python strings are embedded as `List Char`.  The external libraries the code
calls (`unicodedata`, `str.casefold`, `str.strip`, `ftfy.fixes.uncurl_quotes`,
`langcodes`) are modelled on the character repertoire and language tags that
this development exercises; every piece of transcribed Unicode data is from
the Unicode Character Database.  The repository functions themselves
(`tokens.py`, `language_info.py`, `transliterate.py`, `storage.py`) are
embedded statement by statement from the source.
-/

/-! ### Model of `unicodedata.normalize` (restricted repertoire)

Normalization data is transcribed from the UCD for the characters that occur
in this development: U+0130 LATIN CAPITAL LETTER I WITH DOT ABOVE has the
canonical decomposition U+0049 U+0307, U+00A8 DIAERESIS has the compatibility
decomposition U+0020 U+0308, and the combining marks U+0307 and U+0308 have
canonical combining class 230.  Every other character is treated as a
normalization-inert starter, which agrees with full NFC/NFKC on all strings
appearing in this development. -/

/-- Canonical combining class (UCD `ccc`), for the repertoire above. -/
def ccc (c : Char) : Nat :=
  if c = '̇' then 230
  else if c = '̈' then 230
  else 0

/-- Canonical decomposition of one character (used by NFC). -/
def canonDecompChar (c : Char) : List Char :=
  if c = 'İ' then ['I', '̇']
  else [c]

/-- Compatibility decomposition of one character (used by NFKC): the
canonical decompositions plus the compatibility mapping of U+00A8. -/
def compatDecompChar (c : Char) : List Char :=
  if c = 'İ' then ['I', '̇']
  else if c = '¨' then [' ', '̈']
  else [c]

/-- Primary composite for a pair of characters (UCD canonical composition;
compatibility decompositions do not recompose). -/
def composePair (a b : Char) : Option Char :=
  if a = 'I' ∧ b = '̇' then some 'İ'
  else none

/-- Inserts a character into an already canonically ordered list: a combining
character moves right past combining characters of strictly greater class,
and starters act as barriers.  Folding this over the string performs the
stable Canonical Ordering Algorithm of UAX #15. -/
def canonInsert (c : Char) : List Char → List Char
  | [] => [c]
  | d :: ds =>
    if ccc c ≠ 0 ∧ ccc d ≠ 0 ∧ ccc d < ccc c then d :: canonInsert c ds
    else c :: d :: ds

/-- Canonical Ordering Algorithm: stable sort of each run of nonzero-class
combining characters by combining class. -/
def canonicalOrder (l : List Char) : List Char := l.foldr canonInsert []

/-- Canonical Composition Algorithm (UAX #15) on one starter-headed run:
`st` is the current starter, `pending` the combining characters (and
non-combined starters are flushed) seen since `st`.  A character combines
with `st` when it is not blocked: for a non-starter, when no pending
character has a combining class ≥ its own; for a starter, when nothing is
pending. -/
def composeRun : Char → List Char → List Char → List Char
  | st, pending, [] => st :: pending
  | st, pending, c :: rest =>
    if ccc c = 0 then
      match pending, composePair st c with
      | [], some comp => composeRun comp [] rest
      | _, _ => st :: pending ++ composeRun c [] rest
    else
      match (match pending.getLast? with
             | some b => decide (ccc c ≤ ccc b)
             | none => false), composePair st c with
      | false, some comp => composeRun comp pending rest
      | _, _ => composeRun st (pending ++ [c]) rest

/-- Canonical composition of a canonically ordered string; combining
characters before the first starter pass through unchanged. -/
def composeChars : List Char → List Char
  | [] => []
  | c :: cs => if ccc c = 0 then composeRun c [] cs else c :: composeChars cs

/-- Models `unicodedata.normalize('NFC', text)`. -/
def nfcNormalize (l : List Char) : List Char :=
  composeChars (canonicalOrder (l.flatMap canonDecompChar))

/-- Models `unicodedata.normalize('NFKC', text)`. -/
def nfkcNormalize (l : List Char) : List Char :=
  composeChars (canonicalOrder (l.flatMap compatDecompChar))

/-- Models `unicodedata.normalize(form, text)` for the two normal forms this
program uses. -/
def pyNormalize (form : String) (l : List Char) : List Char :=
  if form = "NFC" then nfcNormalize l
  else if form = "NFKC" then nfkcNormalize l
  else l

/-! ### Models of Python string primitives -/

/-- Models `str.replace(old, new)` for one-character `old` and `new` (the
only shape of `replace` the program uses on text). -/
def pyReplaceChar (old new : Char) (l : List Char) : List Char :=
  l.map (fun c => if c = old then new else c)

/-- Unicode whitespace as stripped by `str.strip()`, restricted to the
whitespace characters occurring in this development. -/
def isPySpace (c : Char) : Bool :=
  c = ' ' ∨ c = '\t' ∨ c = '\n' ∨ c = '\r' ∨ c = ' '

/-- Models `str.strip()`: remove leading and trailing whitespace. -/
def pyStrip (l : List Char) : List Char :=
  ((l.dropWhile isPySpace).reverse.dropWhile isPySpace).reverse

/-- Models full Unicode case folding of one character (`str.casefold`),
transcribed from the UCD CaseFolding data for the repertoire of this
development: ASCII capitals fold to lowercase and U+0130 folds to
U+0069 U+0307; the remaining characters used here are fold-stable. -/
def casefoldChar (c : Char) : List Char :=
  if 'A' ≤ c ∧ c ≤ 'Z' then [Char.ofNat (c.toNat + 32)]
  else if c = 'İ' then ['i', '̇']
  else [c]

/-- Models `str.casefold()`. -/
def pyCasefold (l : List Char) : List Char := l.flatMap casefoldChar

deriving instance DecidableEq for Except

/-! ### Embedding of `transliterate.py` -/

/-- ASCII apostrophe, written via its code point. -/
def apos : Char := Char.ofNat 39

/-- Models Python `repr` of a string that needs no escaping: the string
surrounded by single quotes (this is how `"{!r}".format(table)` renders the
table identifiers reaching the error path). -/
def pyRepr (s : String) : List Char := apos :: (s.data ++ [apos])

/-- Embeds the `SR_LATN_TABLE` dict literal in its source order.  A Python
dict literal keeps the *last* binding of a duplicated key, so lookups read
the list from the right; note that `Ә`/`ә` occur twice (once under the
Azerbaijani block, once under the Kazakh block). -/
def SR_LATN_TABLE : List (Char × List Char) := [
  ('А', ['A']),   ('а', ['a']),
  ('Б', ['B']),   ('б', ['b']),
  ('В', ['V']),   ('в', ['v']),
  ('Г', ['G']),   ('г', ['g']),
  ('Д', ['D']),   ('д', ['d']),
  ('Ђ', ['Đ']),   ('ђ', ['đ']),
  ('Е', ['E']),   ('е', ['e']),
  ('Ж', ['Ž']),   ('ж', ['ž']),
  ('З', ['Z']),   ('з', ['z']),
  ('И', ['I']),   ('и', ['i']),
  ('Ј', ['J']),   ('ј', ['j']),
  ('К', ['K']),   ('к', ['k']),
  ('Л', ['L']),   ('л', ['l']),
  ('Љ', ['L', 'j']), ('љ', ['l', 'j']),
  ('М', ['M']),   ('м', ['m']),
  ('Н', ['N']),   ('н', ['n']),
  ('Њ', ['N', 'j']), ('њ', ['n', 'j']),
  ('О', ['O']),   ('о', ['o']),
  ('П', ['P']),   ('п', ['p']),
  ('Р', ['R']),   ('р', ['r']),
  ('С', ['S']),   ('с', ['s']),
  ('Т', ['T']),   ('т', ['t']),
  ('Ћ', ['Ć']),   ('ћ', ['ć']),
  ('У', ['U']),   ('у', ['u']),
  ('Ф', ['F']),   ('ф', ['f']),
  ('Х', ['H']),   ('х', ['h']),
  ('Ц', ['C']),   ('ц', ['c']),
  ('Ч', ['Č']),   ('ч', ['č']),
  ('Џ', ['D', 'ž']), ('џ', ['d', 'ž']),
  ('Ш', ['Š']),   ('ш', ['š']),
  ('Ё', ['J', 'o']), ('ё', ['j', 'o']),
  ('Й', ['J']),   ('й', ['j']),
  ('Щ', ['Š', 'č']), ('щ', ['š', 'č']),
  ('Ъ', []),      ('ъ', []),
  ('Ы', ['Y']),   ('ы', ['y']),
  ('Ь', [apos]),  ('ь', [apos]),
  ('Э', ['E']),   ('э', ['e']),
  ('Ю', ['J', 'u']), ('ю', ['j', 'u']),
  ('Я', ['J', 'a']), ('я', ['j', 'a']),
  ('Ў', ['Ŭ']),   ('ў', ['ŭ']),
  ('Є', ['J', 'e']), ('є', ['j', 'e']),
  ('І', ['I']),   ('і', ['i']),
  ('Ї', ['Ï']),   ('ї', ['ï']),
  ('Ґ', ['G']),   ('ґ', ['g']),
  ('Ѕ', ['D', 'z']), ('ѕ', ['d', 'z']),
  ('Ѓ', ['Ǵ']),   ('ѓ', ['ǵ']),
  ('Ќ', ['Ḱ']),   ('ќ', ['ḱ']),
  ('Ҷ', ['D', 'ž']), ('ҷ', ['d', 'ž']),
  ('Ҹ', ['C']),   ('ҹ', ['c']),
  ('Ә', ['Ə']),   ('ә', ['ə']),
  ('Ғ', ['Ğ']),   ('ғ', ['ğ']),
  ('Һ', ['H']),   ('һ', ['h']),
  ('Ө', ['Ö']),   ('ө', ['ö']),
  ('Ҝ', ['G']),   ('ҝ', ['g']),
  ('Ү', ['Ü']),   ('ү', ['ü']),
  ('Қ', ['Q']),   ('қ', ['q']),
  ('Ә', ['A', apos]), ('ә', ['a', apos]),
  ('Ң', ['N', apos]), ('ң', ['n', apos]),
  ('Ұ', ['U']),   ('ұ', ['u']),
  ('Ѣ', ['Ě']),   ('ѣ', ['ě']),
  ('Ѧ', ['Ę']),   ('ѧ', ['ę']),
  ('Ѩ', ['J', 'ę']), ('ѩ', ['j', 'ę']),
  ('Ѫ', ['Ą']),   ('ѫ', ['ą']),
  ('Ѭ', ['J', 'ą']), ('ѭ', ['j', 'ą']),
  ('Ѥ', ['J', 'e']), ('ѥ', ['j', 'e'])
]

/-- Embeds the dict literal of Azerbaijani overrides applied by
`AZ_LATN_TABLE.update(...)`. -/
def AZ_LATN_OVERRIDES : List (Char × List Char) := [
  ('Ч', ['Ç']),  ('ч', ['ç']),
  ('Х', ['X']),  ('х', ['x']),
  ('Ы', ['I']),  ('ы', ['ı']),
  ('И', ['İ']),  ('и', ['i']),
  ('Ж', ['J']),  ('ж', ['j']),
  ('Ј', ['Y']),  ('ј', ['y']),
  ('Г', ['Q']),  ('г', ['q']),
  ('Ш', ['Ş']),  ('ш', ['ş'])
]

/-- Embeds `AZ_LATN_TABLE = SR_LATN_TABLE.copy(); AZ_LATN_TABLE.update(...)`:
appending the overrides gives them priority under last-binding-wins lookup,
which is exactly `dict.update` semantics. -/
def AZ_LATN_TABLE : List (Char × List Char) := SR_LATN_TABLE ++ AZ_LATN_OVERRIDES

/-- Embeds the dict literal of Kazakh overrides applied by
`KK_LATN_TABLE.update(...)`. -/
def KK_LATN_OVERRIDES : List (Char × List Char) := [
  ('Ғ', ['G', apos]), ('ғ', ['g', apos]),
  ('И', ['I', apos]), ('и', ['i', apos]),
  ('Й', ['I', apos]), ('й', ['i', apos]),
  ('Ж', ['J']),       ('ж', ['j']),
  ('Ө', ['O', apos]), ('ө', ['o', apos]),
  ('У', ['Y', apos]), ('у', ['y', apos]),
  ('Ү', ['U', apos]), ('ү', ['u', apos]),
  ('Һ', ['H']),       ('һ', ['h']),
  ('Ч', ['C', apos]), ('ч', ['c', apos])
]

/-- Embeds `KK_LATN_TABLE = SR_LATN_TABLE.copy(); KK_LATN_TABLE.update(...)`. -/
def KK_LATN_TABLE : List (Char × List Char) := SR_LATN_TABLE ++ KK_LATN_OVERRIDES

/-- Looks a character up in a table, with Python dict semantics: when a key
was bound more than once, the last binding wins. -/
def dictGet (tbl : List (Char × List Char)) (c : Char) : Option (List Char) :=
  tbl.reverse.lookup c

/-- Models `str.translate(table)`: map each character through the table,
characters absent from the table pass through unchanged. -/
def pyTranslate (tbl : List (Char × List Char)) (l : List Char) : List Char :=
  l.flatMap (fun c => (dictGet tbl c).getD [c])

/-- Embeds `transliterate(table, text)`: dispatch on the three known table
names, raise `ValueError("Unknown transliteration table: {!r}".format(table))`
otherwise. -/
def transliterate (table : String) (text : List Char) : Except (List Char) (List Char) :=
  if table = "sr-Latn" then Except.ok (pyTranslate SR_LATN_TABLE text)
  else if table = "az-Latn" then Except.ok (pyTranslate AZ_LATN_TABLE text)
  else if table = "kk-Latn" then Except.ok (pyTranslate KK_LATN_TABLE text)
  else Except.error ("Unknown transliteration table: ".data ++ pyRepr table)

/-! ### Embedding of `language_info.py` -/

/-- Embeds the info dictionary built by `get_language_info`. -/
structure LanguageInfo where
  script : String
  tokenizer : String
  normal_form : String
  remove_marks : Bool
  dotless_i : Bool
  diacritics_under : Option String
  transliteration : Option String
  lookup_transliteration : Option String
deriving DecidableEq

/-- Embeds `get_language_info(language)`.  The two external `langcodes`
capabilities are parameters: `ms tag` models
`Language.get(tag).maximize().script` (likely-subtags inference) and
`il tag targets` models `_language_in_list(tag, targets)`
(`closest_match` within the distance threshold). -/
def get_language_info (ms : String → String) (il : String → List String → Bool)
    (language : String) : LanguageInfo :=
  let script := ms language
  let info : LanguageInfo :=
    { script := script, tokenizer := "regex", normal_form := "NFKC",
      remove_marks := false, dotless_i := false, diacritics_under := none,
      transliteration := none, lookup_transliteration := none }
  let info := if script ∈ ["Latn", "Grek", "Cyrl"]
    then { info with normal_form := "NFC" } else info
  let info :=
    if il language ["tr", "az", "kk"] then
      { info with dotless_i := true, diacritics_under := some ("cedillas") }
    else if il language ["ro"] then { info with diacritics_under := some ("commas") }
    else info
  let info :=
    if il language ["sr"] then { info with transliteration := some ("sr-Latn") }
    else if il language ["az"] then { info with transliteration := some ("az-Latn") }
    else if il language ["kk"] then { info with transliteration := some ("kk-Latn") }
    else info
  info

/-- Models the likely-subtags script inference of the external `langcodes`
library (`Language.get(tag).maximize().script`), transcribed from the CLDR
likely-subtags data for the language tags exercised in this development. -/
def likelyScript (tag : String) : String :=
  if tag = "en" ∨ tag = "de" ∨ tag = "tr" ∨ tag = "az" ∨ tag = "ro" then "Latn"
  else if tag = "el" then "Grek"
  else if tag = "sr" ∨ tag = "kk" ∨ tag = "ru" then "Cyrl"
  else if tag = "ja" then "Jpan"
  else if tag = "ar" then "Arab"
  else "Zzzz"

/-- Models the external `closest_match` test used by `_language_in_list`
(with the default `max_distance=10`), for the plain tags exercised in this
development: each such tag matches a target list exactly when it occurs in
the list (no two distinct tags used here are within the threshold). -/
def closestInList (tag : String) (targets : List String) : Bool :=
  targets.contains tag

/-! ### Embedding of `tokens.py` -/

/-- Embeds `MARK_RE`: Hebrew marks U+0591..U+05C7, Arabic marks
U+0610..U+061A, U+064B..U+065F, U+06D6..U+06ED, and the Arabic tatweel
U+0640. -/
def isAbjadMark (c : Char) : Bool :=
  ('֑' ≤ c ∧ c ≤ 'ׇ') ∨
  ('ؐ' ≤ c ∧ c ≤ 'ؚ') ∨
  ('ً' ≤ c ∧ c ≤ 'ٟ') ∨
  ('ۖ' ≤ c ∧ c ≤ 'ۭ') ∨
  c = 'ـ'

/-- Embeds `remove_marks(text) = MARK_RE.sub('', text)`. -/
def remove_marks (text : List Char) : List Char :=
  text.filter (fun c => ¬ isAbjadMark c)

/-- Embeds `casefold_with_i_dots(text)`: NFC-normalize, then replace `İ` by
`i` and `I` by `ı`, then case-fold. -/
def casefold_with_i_dots (text : List Char) : List Char :=
  pyCasefold (pyReplaceChar 'I' 'ı' (pyReplaceChar 'İ' 'i' (pyNormalize ("NFC") text)))

/-- Embeds `commas_to_cedillas(text)` (ș→ş, ț→ţ; lowercase only). -/
def commas_to_cedillas (text : List Char) : List Char :=
  pyReplaceChar 'ț' 'ţ' (pyReplaceChar 'ș' 'ş' text)

/-- Embeds `cedillas_to_commas(text)` (ş→ș, ţ→ț; lowercase only). -/
def cedillas_to_commas (text : List Char) : List Char :=
  pyReplaceChar 'ţ' 'ț' (pyReplaceChar 'ş' 'ș' text)

/-- Models `ftfy.fixes.uncurl_quotes` (external dependency): the curly
single quotes U+2018..U+201B become an ASCII apostrophe and the curly double
quotes U+201C..U+201F become an ASCII quotation mark. -/
def uncurl_quotes (text : List Char) : List Char :=
  text.map (fun c =>
    if '‘' ≤ c ∧ c ≤ '‛' then apos
    else if '“' ≤ c ∧ c ≤ '‟' then '"'
    else c)

/-- Models `\d` of `DIGIT_RE`/`MULTI_DIGIT_RE`, restricted to the ASCII
decimal digits (the only digits appearing in this development; other
Unicode decimal digits would behave identically). -/
def isPyDigit (c : Char) : Bool := '0' ≤ c ∧ c ≤ '9'

/-- Character class `[\d.,]` of `MULTI_DIGIT_RE`. -/
def isDigitRunChar (c : Char) : Bool := isPyDigit c ∨ c = '.' ∨ c = ','

/-- Embeds `_sub_numbers` on a single character: digits become `#`. -/
def smashChar (c : Char) : Char := if isPyDigit c then '#' else c

/-- Models `MULTI_DIGIT_RE.sub(_sub_numbers, text)` as a left-to-right scan.
The regex `\d[\d.,]+` matches, leftmost and greedily, a digit followed by a
maximal nonempty run of digits, periods and commas; `_sub_numbers` replaces
the digits of each match by `#`.  The flag records whether the scan is
inside such a match: inside a match the current character is consumed while
it stays in `[\d.,]`; outside (or at the first character after a match) a
new match starts exactly when the current character is a digit and the next
is in `[\d.,]`. -/
def multiDigitSubScan : Bool → List Char → List Char
  | _, [] => []
  | inRun, [c] => if inRun && isDigitRunChar c then [smashChar c] else [c]
  | inRun, c :: d :: rest =>
    if inRun && isDigitRunChar c then smashChar c :: multiDigitSubScan true (d :: rest)
    else if isPyDigit c && isDigitRunChar d then
      smashChar c :: multiDigitSubScan true (d :: rest)
    else c :: multiDigitSubScan false (d :: rest)

/-- Embeds `MULTI_DIGIT_RE.sub(_sub_numbers, text)`. -/
def multi_digit_sub (text : List Char) : List Char := multiDigitSubScan false text

/-- Embeds `smash_numbers(text)`: substitute the multi-digit runs and prefix
`NUM:` exactly when the substitution changed the token. -/
def smash_numbers (text : List Char) : List Char :=
  let replaced := multi_digit_sub text
  if replaced = text then text else "NUM:".data ++ replaced

/-- Embeds `normalize_text(text, language)` step by step; the external
`langcodes` capabilities `ms`/`il` are passed through to
`get_language_info`.  A raised `ValueError` (possible in Python only from
`transliterate`) is modelled by the `Except` error channel. -/
def normalize_text (ms : String → String) (il : String → List String → Bool)
    (text0 : List Char) (language : String) : Except (List Char) (List Char) :=
  let info := get_language_info ms il language
  -- text.replace("\n", " ").replace("\t", " ").strip()
  let text1 := pyStrip (pyReplaceChar '\t' ' ' (pyReplaceChar '\n' ' ' text0))
  -- NFC or NFKC normalization, as needed for the language
  let text2 := pyNormalize info.normal_form text1
  -- transliteration of multi-script languages (an error propagates out,
  -- like the Python exception would)
  (match info.transliteration with
   | some tbl => transliterate tbl text2
   | none => Except.ok text2).map fun text3 =>
    -- abjad mark removal
    let text4 := remove_marks text3
    -- case folding
    let text5 := if info.dotless_i then casefold_with_i_dots text4 else pyCasefold text4
    -- fixing of diacritics
    let text6 :=
      if info.diacritics_under = some ("commas") then cedillas_to_commas text5
      else if info.diacritics_under = some ("cedillas") then commas_to_cedillas text5
      else text5
    -- curly apostrophes become straight
    uncurl_quotes text6

/-- Transliteration stage of the pipeline, as a function (identity for
languages without a transliteration table). -/
def translitStep (info : LanguageInfo) (text : List Char) : Except (List Char) (List Char) :=
  match info.transliteration with
  | some tbl => transliterate tbl text
  | none => Except.ok text

/-- Case-folding stage of the pipeline, as a function. -/
def caseStep (info : LanguageInfo) (text : List Char) : List Char :=
  if info.dotless_i then casefold_with_i_dots text else pyCasefold text

/-- Diacritic-correction stage of the pipeline, as a function. -/
def diacriticsStep (info : LanguageInfo) (text : List Char) : List Char :=
  if info.diacritics_under = some ("commas") then cedillas_to_commas text
  else if info.diacritics_under = some ("cedillas") then commas_to_cedillas text
  else text

/-! ### Embedding of `storage.py` (class `DocZip`)

The archive is modelled as the list of its entries in the order they were
added: `ZipFile.write(...)` appends an entry, and `ZipFile.namelist()`
returns the entry names in that same order.  The external spaCy tokenizer
`self.nlp` is a parameter turning a document text into an opaque `Doc`. -/

/-- Models Python `enumerate`, starting at index `j`. -/
def enumFrom {α : Type} (j : Nat) : List α → List (Nat × α)
  | [] => []
  | a :: as => (j, a) :: enumFrom (j + 1) as

/-- Prepends one element to a keyed grouping: join the first group when the
keys agree, open a new group otherwise. -/
def pyGroupbyStep {α : Type} (key : α → Nat) (a : α) :
    List (Nat × List α) → List (Nat × List α)
  | [] => [(key a, [a])]
  | (k, g) :: rest =>
    if key a = k then (key a, a :: g) :: rest
    else (key a, [a]) :: (k, g) :: rest

/-- Models `itertools.groupby(list, key)`: split into maximal runs of
consecutive elements sharing a key, each tagged with that key. -/
def pyGroupby {α : Type} (key : α → Nat) : List α → List (Nat × List α)
  | [] => []
  | a :: as => pyGroupbyStep key a (pyGroupby key as)

namespace DocZip

/-- Models the format specifier `{:>03d}`: the decimal digits, right-aligned
with `0` fill to a minimum width of 3 (wider numbers are not truncated). -/
def padIndex (n : Nat) : List Char :=
  let ds := Nat.toDigits 10 n
  List.replicate (3 - ds.length) '0' ++ ds

/-- Embeds the chunk file name `f"{self.lang}_{chunk_num:>03d}.spacy"`. -/
def chunkName (lang : String) (n : Nat) : List Char :=
  lang.data ++ '_' :: (padIndex n ++ ".spacy".data)

/-- Embeds `DocZip.write_stream(stream, chunk_size)`: enumerate the stream,
group consecutive items by `index // chunk_size`, tokenize each text with
`nlp`, and append one named entry per group to the zip (in loop order).
The result is the written zip: the list of (entry name, chunk documents). -/
def write_stream {Doc : Type} (nlp : String → Doc) (lang : String)
    (stream : List String) (chunk_size : Nat) : List (List Char × List Doc) :=
  (pyGroupby (fun p => p.1 / chunk_size) (enumFrom 0 stream)).map
    (fun g => (chunkName lang g.1, g.2.map (fun p => nlp p.2)))

/-- Embeds `DocZip.get_chunks()` = `zip_file.namelist()`: the entry names in
the order the entries were written. -/
def get_chunks {Doc : Type} (zipFile : List (List Char × List Doc)) : List (List Char) :=
  zipFile.map Prod.fst

/-- Embeds `DocZip.iterate_chunk(chunkname)`: the documents of one chunk. -/
def iterate_chunk {Doc : Type} (zipFile : List (List Char × List Doc))
    (chunkname : List Char) : List Doc :=
  ((zipFile.reverse.lookup chunkname).getD [])

/-- Embeds `DocZip.iterate()`: all documents of all chunks, following the
order of `get_chunks()`. -/
def iterate {Doc : Type} (zipFile : List (List Char × List Doc)) : List Doc :=
  (zipFile.map Prod.snd).flatten

end DocZip

/-! ### Spec-side definitions used to state claims -/

/-- Scans a token for the shape matched by `MULTI_DIGIT_RE`: a digit
immediately followed by a digit, period or comma.  This is a spec-side
characterization, independent of the substitution algorithm. -/
def hasMultiDigitRun : List Char → Bool
  | [] => false
  | [_] => false
  | c :: d :: rest => (isPyDigit c && isDigitRunChar d) || hasMultiDigitRun (d :: rest)

/-- Modelled from the spec's wording of the dotless-i case-folding step
(first map `İ`→`i` and `I`→`ı`, then re-normalize to NFC, then case-fold),
for comparison with the source's `casefold_with_i_dots`, which normalizes
before mapping. -/
def casefold_with_i_dots_spec_order (text : List Char) : List Char :=
  pyCasefold (pyNormalize ("NFC") (pyReplaceChar 'I' 'ı' (pyReplaceChar 'İ' 'i' text)))

/-! ### Lemmas about `smash_numbers` -/

lemma smashChar_of_digit {c : Char} (h : isPyDigit c = true) : smashChar c = '#' := by
  simp [smashChar, h]

lemma digit_ne_hash {c : Char} (h : isPyDigit c = true) : c ≠ '#' := by
  intro hc
  subst hc
  exact absurd h (by decide)

lemma smashChar_pred (c : Char) :
    smashChar c = c ∨ (isPyDigit c = true ∧ smashChar c = '#') := by
  by_cases h : isPyDigit c = true
  · exact Or.inr ⟨h, smashChar_of_digit h⟩
  · left
    simp [smashChar, h]

lemma multiDigitSubScan_no_run : ∀ t : List Char, hasMultiDigitRun t = false →
    multiDigitSubScan false t = t
  | [], _ => rfl
  | [c], _ => by simp [multiDigitSubScan]
  | c :: d :: rest, h => by
    cases hb : (isPyDigit c && isDigitRunChar d) with
    | true =>
      rw [hasMultiDigitRun, hb, Bool.true_or] at h
      exact absurd h (by simp)
    | false =>
      rw [hasMultiDigitRun, hb, Bool.false_or] at h
      rw [multiDigitSubScan]
      simp only [Bool.false_and, Bool.false_eq_true, if_false, hb]
      rw [multiDigitSubScan_no_run (d :: rest) h]

lemma multiDigitSubScan_run_ne : ∀ t : List Char, hasMultiDigitRun t = true →
    multiDigitSubScan false t ≠ t
  | [], h => by simp [hasMultiDigitRun] at h
  | [c], h => by simp [hasMultiDigitRun] at h
  | c :: d :: rest, h => by
    rw [multiDigitSubScan]
    simp only [Bool.false_and, Bool.false_eq_true, if_false]
    cases hb : (isPyDigit c && isDigitRunChar d) with
    | true =>
      rw [if_pos rfl]
      have hc : isPyDigit c = true := by
        cases hval : isPyDigit c
        · rw [hval, Bool.false_and] at hb
          exact absurd hb (by simp)
        · rfl
      intro heq
      injection heq with hh _
      rw [smashChar_of_digit hc] at hh
      exact digit_ne_hash hc hh.symm
    | false =>
      rw [if_neg (by simp)]
      rw [hasMultiDigitRun, hb, Bool.false_or] at h
      intro heq
      injection heq with _ ht
      exact multiDigitSubScan_run_ne (d :: rest) h ht

lemma multiDigitSubScan_forall2 : ∀ (b : Bool) (t : List Char),
    List.Forall₂ (fun a c => c = a ∨ (isPyDigit a = true ∧ c = '#')) t (multiDigitSubScan b t)
  | _, [] => List.Forall₂.nil
  | inRun, [c] => by
    rw [multiDigitSubScan]
    split
    · exact List.Forall₂.cons (smashChar_pred c) List.Forall₂.nil
    · exact List.Forall₂.cons (Or.inl rfl) List.Forall₂.nil
  | inRun, c :: d :: rest => by
    rw [multiDigitSubScan]
    split
    · exact List.Forall₂.cons (smashChar_pred c) (multiDigitSubScan_forall2 true (d :: rest))
    · split
      · exact List.Forall₂.cons (smashChar_pred c) (multiDigitSubScan_forall2 true (d :: rest))
      · exact List.Forall₂.cons (Or.inl rfl) (multiDigitSubScan_forall2 false (d :: rest))

/-! ### Lemmas about the chunked archive -/

lemma succ_div_mod_of_lt {C j : Nat} (hC : 0 < C) (h : j % C + 1 < C) :
    (j + 1) / C = j / C ∧ (j + 1) % C = j % C + 1 := by
  have hrep : j + 1 = C * (j / C) + (j % C + 1) := by
    rw [← Nat.add_assoc, Nat.div_add_mod]
  constructor
  · rw [hrep, Nat.mul_add_div hC, Nat.div_eq_of_lt h, Nat.add_zero]
  · rw [hrep, Nat.mul_add_mod, Nat.mod_eq_of_lt h]

lemma succ_div_of_eq {C j : Nat} (hC : 0 < C) (h : j % C + 1 = C) :
    (j + 1) / C = j / C + 1 := by
  have hrep : j + 1 = C * (j / C + 1) := by
    calc j + 1 = C * (j / C) + (j % C + 1) := by rw [← Nat.add_assoc, Nat.div_add_mod]
    _ = C * (j / C) + C := by rw [h]
    _ = C * (j / C + 1) := (Nat.mul_succ C _).symm
  rw [hrep, Nat.mul_div_cancel_left _ hC]

lemma pyGroupby_flatten {α : Type} (key : α → Nat) :
    ∀ l : List α, ((pyGroupby key l).map Prod.snd).flatten = l
  | [] => rfl
  | a :: as => by
    have ih := pyGroupby_flatten key as
    rw [pyGroupby]
    cases hG : pyGroupby key as with
    | nil =>
      rw [hG] at ih
      simp only [List.map_nil, List.flatten_nil] at ih
      rw [pyGroupbyStep, ← ih]
      rfl
    | cons p rest =>
      obtain ⟨k, g⟩ := p
      rw [hG] at ih
      rw [pyGroupbyStep]
      by_cases hk : key a = k
      · rw [if_pos hk]
        simp only [List.map_cons, List.flatten_cons] at ih ⊢
        rw [List.cons_append, ih]
      · rw [if_neg hk]
        simp only [List.map_cons, List.flatten_cons] at ih ⊢
        rw [List.singleton_append, ih]

lemma enumFrom_map_snd {α β : Type} (f : α → β) :
    ∀ (j : Nat) (l : List α), (enumFrom j l).map (fun p => f p.2) = l.map f
  | _, [] => rfl
  | j, a :: as => by
    rw [enumFrom, List.map_cons, List.map_cons, enumFrom_map_snd f (j + 1) as]

lemma pyGroupby_enum_spec {α : Type} (C : Nat) (hC : 0 < C) :
    ∀ (l : List α) (j : Nat),
      ((pyGroupby (fun p : Nat × α => p.1 / C) (enumFrom j l)).map Prod.fst
          = List.range' (j / C)
              (pyGroupby (fun p : Nat × α => p.1 / C) (enumFrom j l)).length)
      ∧ (∀ p ∈ pyGroupby (fun p : Nat × α => p.1 / C) (enumFrom j l), p.2.length ≤ C)
      ∧ (∀ p, (pyGroupby (fun p : Nat × α => p.1 / C) (enumFrom j l)).head? = some p →
          p.2.length + j % C ≤ C)
  | [], j => by simp [enumFrom, pyGroupby]
  | a :: as, j => by
    obtain ⟨ihk, ihs, ihh⟩ := pyGroupby_enum_spec C hC as (j + 1)
    have hmod : j % C < C := Nat.mod_lt _ hC
    rw [enumFrom, pyGroupby]
    cases hG : pyGroupby (fun p : Nat × α => p.1 / C) (enumFrom (j + 1) as) with
    | nil =>
      rw [pyGroupbyStep]
      refine ⟨by simp [List.range'], ?_, ?_⟩
      · intro p hp
        simp only [List.mem_singleton] at hp
        subst hp
        exact hC
      · intro p hp
        simp only [List.head?_cons, Option.some.injEq] at hp
        subst hp
        simpa [Nat.add_comm] using hmod
    | cons kg rest =>
      obtain ⟨k, g⟩ := kg
      rw [pyGroupbyStep]
      rw [hG] at ihk ihs ihh
      have hkfst : k = (j + 1) / C ∧
          rest.map Prod.fst = List.range' ((j + 1) / C + 1) rest.length := by
        rw [List.map_cons, List.length_cons, List.range'_succ] at ihk
        exact ⟨(List.cons.injEq _ _ _ _ ▸ ihk).1, (List.cons.injEq _ _ _ _ ▸ ihk).2⟩
      have hheadg : g.length + (j + 1) % C ≤ C := ihh (k, g) rfl
      by_cases hk : j / C = k
      · rw [if_pos hk]
        have harith : (j + 1) % C = j % C + 1 := by
          by_cases hlt : j % C + 1 < C
          · exact (succ_div_mod_of_lt hC hlt).2
          · exfalso
            have heqC : j % C + 1 = C := Nat.le_antisymm (Nat.succ_le_of_lt hmod)
              (Nat.le_of_not_lt hlt)
            have hd := succ_div_of_eq hC heqC
            rw [hkfst.1] at hk
            rw [hk] at hd
            exact absurd hd (Nat.ne_of_lt (Nat.lt_succ_self _))
        have hheadg' : g.length + (j % C + 1) ≤ C := by rw [← harith]; exact hheadg
        refine ⟨?_, ?_, ?_⟩
        · simp only [List.map_cons, List.length_cons]
          rw [hkfst.2, List.range'_succ]
          have : j / C + 1 = (j + 1) / C + 1 := by rw [hk, hkfst.1]
          rw [this]
        · intro p hp
          rcases List.mem_cons.mp hp with hp1 | hp2
          · subst hp1
            simp only [List.length_cons]
            calc g.length + 1 ≤ g.length + (j % C + 1) :=
                  Nat.add_le_add_left (Nat.succ_le_succ (Nat.zero_le _)) _
            _ ≤ C := hheadg'
          · exact ihs p (List.mem_cons_of_mem _ hp2)
        · intro p hp
          simp only [List.head?_cons, Option.some.injEq] at hp
          subst hp
          simp only [List.length_cons]
          calc g.length + 1 + j % C = g.length + (j % C + 1) := by ring
          _ ≤ C := hheadg'
      · rw [if_neg hk]
        have heqC : j % C + 1 = C := by
          by_cases hlt : j % C + 1 < C
          · exfalso
            have hd := (succ_div_mod_of_lt hC hlt).1
            rw [hkfst.1] at hk
            exact hk hd.symm
          · exact Nat.le_antisymm (Nat.succ_le_of_lt hmod) (Nat.le_of_not_lt hlt)
        have hdiv : (j + 1) / C = j / C + 1 := succ_div_of_eq hC heqC
        refine ⟨?_, ?_, ?_⟩
        · simp only [List.map_cons, List.length_cons]
          rw [hkfst.2, hkfst.1, hdiv, ← List.range'_succ, ← List.range'_succ]
        · intro p hp
          rcases List.mem_cons.mp hp with hp1 | hp2
          · subst hp1
            exact hC
          · exact ihs p hp2
        · intro p hp
          simp only [List.head?_cons, Option.some.injEq] at hp
          subst hp
          simp only [List.length_singleton]
          rw [Nat.add_comm, heqC]

/-! ### Lemmas about the normalization pipeline -/

lemma normalize_text_eq_pipeline (ms : String → String)
    (il : String → List String → Bool) (text : List Char) (L : String) :
    normalize_text ms il text L
      = Except.map
          (fun s => uncurl_quotes (diacriticsStep (get_language_info ms il L)
            (caseStep (get_language_info ms il L) (remove_marks s))))
          (translitStep (get_language_info ms il L)
            (pyNormalize (get_language_info ms il L).normal_form
              (pyStrip (pyReplaceChar '\t' ' ' (pyReplaceChar '\n' ' ' text))))) := rfl

lemma get_language_info_transliteration_cases (ms : String → String)
    (il : String → List String → Bool) (L : String) :
    (get_language_info ms il L).transliteration = none ∨
    (get_language_info ms il L).transliteration = some ("sr-Latn") ∨
    (get_language_info ms il L).transliteration = some ("az-Latn") ∨
    (get_language_info ms il L).transliteration = some ("kk-Latn") := by
  simp only [get_language_info]
  split_ifs <;> simp

lemma flatten_map_chunks {β γ : Type} (f : β → γ) (h : Nat → List Char) :
    ∀ groups : List (Nat × List β),
      ((groups.map (fun g => (h g.1, g.2.map f))).map Prod.snd).flatten
        = ((groups.map Prod.snd).flatten).map f
  | [] => rfl
  | g :: gs => by
    simp only [List.map_cons, List.flatten_cons, List.map_append]
    rw [flatten_map_chunks f h gs]

lemma iterate_write_stream_eq {Doc : Type} (nlp : String → Doc) (lang : String)
    (docs : List String) (C : Nat) :
    DocZip.iterate (DocZip.write_stream nlp lang docs C) = docs.map nlp := by
  unfold DocZip.iterate DocZip.write_stream
  rw [flatten_map_chunks, pyGroupby_flatten, enumFrom_map_snd]

/-! ### Claim theorems -/

/-- Claim C1: for every input string and language tag, `normalize_text`
equals the seven-step pipeline applied in exactly this order: (1) replace
newlines and tabs by a space and strip, (2) Unicode-normalize with the
profile's normal form, (3) transliterate when the profile specifies a table
(running on the already Unicode-normalized text), (4) remove abjad marks,
(5) case-fold (dotless-i variant when set), (6) apply the diacritics_under
correction, (7) straighten curly quotes. -/
theorem normalize_text_pipeline_order (ms : String → String)
    (il : String → List String → Bool) (text : List Char) (L : String) :
    normalize_text ms il text L
      = Except.map
          (fun s => uncurl_quotes (diacriticsStep (get_language_info ms il L)
            (caseStep (get_language_info ms il L) (remove_marks s))))
          (translitStep (get_language_info ms il L)
            (pyNormalize (get_language_info ms il L).normal_form
              (pyStrip (pyReplaceChar '\t' ' ' (pyReplaceChar '\n' ' ' text))))) :=
  normalize_text_eq_pipeline ms il text L

/-- Claim C2: writing any stream of documents with chunk capacity `C ≥ 1`
and reading back via `iterate` yields exactly the original documents in
write order; every chunk holds at most `C` documents; and a nonempty stream
always produces at least one (possibly partially filled) chunk. -/
theorem write_stream_iterate_roundtrip {Doc : Type} (nlp : String → Doc)
    (lang : String) (docs : List String) (C : Nat) (hC : 1 ≤ C) :
    DocZip.iterate (DocZip.write_stream nlp lang docs C) = docs.map nlp
    ∧ (∀ chunk ∈ DocZip.write_stream nlp lang docs C, chunk.2.length ≤ C)
    ∧ (docs ≠ [] → DocZip.write_stream nlp lang docs C ≠ []) := by
  refine ⟨iterate_write_stream_eq nlp lang docs C, ?_, ?_⟩
  · intro chunk hmem
    unfold DocZip.write_stream at hmem
    obtain ⟨g, hg, hchunk⟩ := List.mem_map.mp hmem
    have hlen := (pyGroupby_enum_spec C hC docs 0).2.1 g hg
    rw [← hchunk]
    simpa using hlen
  · intro hne hw
    apply hne
    unfold DocZip.write_stream at hw
    have hgroups : pyGroupby (fun p : Nat × String => p.1 / C) (enumFrom 0 docs) = [] := by
      cases hG : pyGroupby (fun p : Nat × String => p.1 / C) (enumFrom 0 docs) with
      | nil => rfl
      | cons p rest =>
        rw [hG] at hw
        exact absurd hw (by simp)
    have hflat := pyGroupby_flatten (fun p : Nat × String => p.1 / C) (enumFrom 0 docs)
    rw [hgroups] at hflat
    simp only [List.map_nil, List.flatten_nil] at hflat
    cases docs with
    | nil => rfl
    | cons d ds => exact absurd hflat.symm (by simp [enumFrom])

/-- Claim C2 witness: a concrete round trip with five documents and chunk
capacity two. -/
theorem write_stream_iterate_roundtrip_witness :
    DocZip.iterate (DocZip.write_stream String.length ("en")
        ["a", "bb", "ccc", "dd", "e"] 2) = [1, 2, 3, 2, 1]
    ∧ ∀ chunk ∈ DocZip.write_stream String.length ("en")
        ["a", "bb", "ccc", "dd", "e"] 2, chunk.2.length ≤ 2 := by
  have h := write_stream_iterate_roundtrip String.length ("en")
    ["a", "bb", "ccc", "dd", "e"] 2 (by decide)
  exact ⟨by rw [h.1]; rfl, h.2.1⟩

/-- Claim C3, counterexample: `smash_numbers` changes a token that contains
only one digit.  The regex `\d[\d.,]+` matches `"1."` (a digit followed by a
period), so `smash_numbers "1." = "NUM:#."`, although the token does not
contain a run of two or more digits. -/
theorem smash_numbers_single_digit_counterexample :
    smash_numbers ['1', '.'] = "NUM:".data ++ ['#', '.']
    ∧ List.countP (fun c => isPyDigit c) ['1', '.'] < 2 := by decide

/-- Claim C3 (amended): `smash_numbers` prefixes `NUM:` and substitutes
exactly when the token contains a digit immediately followed by a digit,
period or comma (not necessarily two digits); the substitution only turns
digits into `#`, character for character, and a token without such a run is
returned unchanged. -/
theorem smash_numbers_spec (t : List Char) :
    smash_numbers t
      = (if hasMultiDigitRun t then "NUM:".data ++ multi_digit_sub t else t)
    ∧ List.Forall₂ (fun a c => c = a ∨ (isPyDigit a = true ∧ c = '#'))
        t (multi_digit_sub t) := by
  constructor
  · unfold smash_numbers multi_digit_sub
    cases h : hasMultiDigitRun t with
    | false =>
      rw [if_pos (multiDigitSubScan_no_run t h)]
      simp
    | true =>
      rw [if_neg (multiDigitSubScan_run_ne t h)]
      simp
  · exact multiDigitSubScan_forall2 false t

/-- Claim C4, counterexample: the source's case-folding step normalizes to
NFC *before* mapping `İ`→`i`, `I`→`ı`, not after as the claim states.  On
the decomposed input U+0049 U+0307 the source composes to `İ` first and
folds to `"i"`, while the claimed order maps `I` to `ı` first and yields
`"ı" + COMBINING DOT ABOVE`. -/
theorem casefold_with_i_dots_order_counterexample :
    casefold_with_i_dots ['I', '̇'] = ['i']
    ∧ casefold_with_i_dots_spec_order ['I', '̇'] = ['ı', '̇']
    ∧ casefold_with_i_dots ['I', '̇'] ≠ casefold_with_i_dots_spec_order ['I', '̇'] := by
  decide

/-- Claim C4 (amended): when the profile sets `dotless_i`, the case-folding
stage of `normalize_text` first re-normalizes to NFC, then maps `İ` to `i`
and `I` to `ı`, then applies full case folding; the rest of the pipeline is
unchanged. -/
theorem normalize_text_dotless_i_order (ms : String → String)
    (il : String → List String → Bool) (text : List Char) (L : String)
    (h : (get_language_info ms il L).dotless_i = true) :
    normalize_text ms il text L
      = Except.map
          (fun s => uncurl_quotes (diacriticsStep (get_language_info ms il L)
            (pyCasefold (pyReplaceChar 'I' 'ı' (pyReplaceChar 'İ' 'i'
              (pyNormalize ("NFC") (remove_marks s)))))))
          (translitStep (get_language_info ms il L)
            (pyNormalize (get_language_info ms il L).normal_form
              (pyStrip (pyReplaceChar '\t' ' ' (pyReplaceChar '\n' ' ' text))))) := by
  rw [normalize_text_eq_pipeline]
  have hcase : caseStep (get_language_info ms il L) = fun s =>
      pyCasefold (pyReplaceChar 'I' 'ı' (pyReplaceChar 'İ' 'i' (pyNormalize ("NFC") s))) := by
    funext s
    rw [caseStep, if_pos h]
    rfl
  rw [hcase]

/-- Claim C4 witness: for Turkish the dotless-i flag is set and
`normalize_text "I" "tr" = "ı"`. -/
theorem normalize_text_dotless_i_order_witness :
    (get_language_info likelyScript closestInList ("tr")).dotless_i = true
    ∧ normalize_text likelyScript closestInList ("I".data) ("tr")
        = Except.ok ("ı".data) := by
  refine ⟨by decide, ?_⟩
  rw [normalize_text_dotless_i_order likelyScript closestInList ("I".data) ("tr")
    (by decide)]
  decide

/-- Claim C5: `get_chunks` on a written archive returns the chunk names in
exactly the order the chunks were written — the names carry the zero-padded
chunk indices 0, 1, 2, … in increasing order — and iterating the chunks in
that order reproduces the original document write order; this holds for any
number of chunks, in particular beyond 1000. -/
theorem get_chunks_write_order {Doc : Type} (nlp : String → Doc)
    (lang : String) (docs : List String) (C : Nat) (hC : 1 ≤ C) :
    DocZip.get_chunks (DocZip.write_stream nlp lang docs C)
      = (List.range (DocZip.write_stream nlp lang docs C).length).map
          (DocZip.chunkName lang)
    ∧ DocZip.iterate (DocZip.write_stream nlp lang docs C) = docs.map nlp := by
  refine ⟨?_, iterate_write_stream_eq nlp lang docs C⟩
  unfold DocZip.get_chunks DocZip.write_stream
  rw [List.map_map, List.length_map]
  have hcomp : (Prod.fst ∘ fun g : Nat × List (Nat × String) =>
      (DocZip.chunkName lang g.1, g.2.map fun p => nlp p.2))
      = DocZip.chunkName lang ∘ Prod.fst := rfl
  rw [hcomp, ← List.map_map, (pyGroupby_enum_spec C hC docs 0).1, Nat.zero_div,
    List.range_eq_range']

/-- Claim C5 witness: three single-document chunks come back in write
order with zero-padded names. -/
theorem get_chunks_write_order_witness :
    DocZip.get_chunks (DocZip.write_stream String.length ("en") ["a", "b", "c"] 1)
      = ["en_000.spacy".data, "en_001.spacy".data, "en_002.spacy".data] := by
  have h := get_chunks_write_order String.length ("en") ["a", "b", "c"] 1 (by decide)
  rw [h.1]
  rfl

/-- Claim C6: the resolved profile has normal form NFC exactly when the
maximized script is Latin, Greek or Cyrillic (NFKC otherwise), and a tag
that matches none of the special-case language lists keeps the defaults:
no dotless-i, no diacritic correction, no transliteration. -/
theorem get_language_info_normal_form_defaults (ms : String → String)
    (il : String → List String → Bool) (L : String) :
    ((get_language_info ms il L).normal_form = "NFC" ↔ ms L ∈ ["Latn", "Grek", "Cyrl"])
    ∧ (il L ["tr", "az", "kk"] = false → il L ["ro"] = false →
        il L ["sr"] = false → il L ["az"] = false → il L ["kk"] = false →
        (get_language_info ms il L).dotless_i = false
        ∧ (get_language_info ms il L).diacritics_under = none
        ∧ (get_language_info ms il L).transliteration = none) := by
  constructor
  · simp only [get_language_info]
    split_ifs with h1 <;> simp_all
  · intro h1 h2 h3 h4 h5
    simp only [get_language_info]
    simp only [h1, h2, h3, h4, h5]
    split_ifs <;> simp_all

/-- Claim C6 witness: the tag "ja" maximizes to the Japanese script, gets
NFKC, and keeps every default. -/
theorem get_language_info_normal_form_defaults_witness :
    ((get_language_info likelyScript closestInList ("ja")).normal_form = "NFC"
      ↔ likelyScript ("ja") ∈ ["Latn", "Grek", "Cyrl"])
    ∧ (get_language_info likelyScript closestInList ("ja")).dotless_i = false
    ∧ (get_language_info likelyScript closestInList ("ja")).transliteration = none := by
  have h := get_language_info_normal_form_defaults likelyScript closestInList ("ja")
  have hd := h.2 rfl rfl rfl rfl rfl
  exact ⟨h.1, hd.1, hd.2.2⟩

/-- Claim C7, counterexample: normalization is not idempotent on every
input.  For U+00A8 DIAERESIS under "ja", the first pass strips (no-op),
then NFKC expands `¨` to a *leading* space plus U+0308, so the output is
`" ̈"`; the second pass strips that space, giving a different string. -/
theorem normalize_text_not_idempotent :
    normalize_text likelyScript closestInList ['¨'] ("ja") = Except.ok ([' ', '̈'])
    ∧ normalize_text likelyScript closestInList [' ', '̈'] ("ja") = Except.ok (['̈'])
    ∧ ¬ ((normalize_text likelyScript closestInList ['¨'] ("ja")).bind
          (fun y => normalize_text likelyScript closestInList y ("ja"))
        = normalize_text likelyScript closestInList ['¨'] ("ja")) := by
  decide

/-- Claim C7 (amended): text left unchanged by every stage of the pipeline —
strip-stable, stable under the profile's Unicode normal form, transliteration-
stable, free of abjad marks, case-folded, diacritic-corrected and without
curly quotes — is a fixed point of `normalize_text`; idempotence holds for
such outputs but not for every input. -/
theorem normalize_text_fixed_point (ms : String → String)
    (il : String → List String → Bool) (y : List Char) (L : String)
    (h1 : pyStrip (pyReplaceChar '\t' ' ' (pyReplaceChar '\n' ' ' y)) = y)
    (h2 : pyNormalize (get_language_info ms il L).normal_form y = y)
    (h3 : translitStep (get_language_info ms il L) y = Except.ok y)
    (h4 : remove_marks y = y)
    (h5 : caseStep (get_language_info ms il L) y = y)
    (h6 : diacriticsStep (get_language_info ms il L) y = y)
    (h7 : uncurl_quotes y = y) :
    normalize_text ms il y L = Except.ok y := by
  rw [normalize_text_eq_pipeline, h1, h2, h3]
  show Except.ok (uncurl_quotes (diacriticsStep _ (caseStep _ (remove_marks y)))) = _
  rw [h4, h5, h6, h7]

/-- Claim C7 witness: "word" under "en" satisfies every stage-stability
hypothesis and is a fixed point. -/
theorem normalize_text_fixed_point_witness :
    normalize_text likelyScript closestInList ("word".data) ("en")
      = Except.ok ("word".data) :=
  normalize_text_fixed_point likelyScript closestInList ("word".data) ("en")
    (by decide) (by decide) (by decide) (by decide) (by decide) (by decide) (by decide)

/-- Claim C8: `transliterate` succeeds on every text for each of the three
defined table ids, and for any other id it fails with an invalid-argument
error whose message embeds the offending identifier (no default table is
substituted). -/
theorem transliterate_total_or_invalid_table (table : String) (text : List Char) :
    if table ∈ ["sr-Latn", "az-Latn", "kk-Latn"] then
      ∃ s, transliterate table text = Except.ok s
    else
      transliterate table text
          = Except.error ("Unknown transliteration table: ".data ++ pyRepr table)
        ∧ ∃ pre post, ("Unknown transliteration table: ".data ++ pyRepr table)
            = pre ++ table.data ++ post := by
  by_cases h : table ∈ ["sr-Latn", "az-Latn", "kk-Latn"]
  · rw [if_pos h]
    rcases List.mem_cons.mp h with h1 | h1
    · subst h1
      exact ⟨_, rfl⟩
    rcases List.mem_cons.mp h1 with h2 | h2
    · subst h2
      exact ⟨_, rfl⟩
    rcases List.mem_cons.mp h2 with h3 | h3
    · subst h3
      exact ⟨_, rfl⟩
    · exact absurd h3 (by simp)
  · rw [if_neg h]
    simp only [List.mem_cons, List.mem_singleton, not_or] at h
    obtain ⟨hn1, hn2, hn3⟩ := h
    refine ⟨by simp [transliterate, hn1, hn2, hn3], ?_⟩
    exact ⟨"Unknown transliteration table: ".data ++ [apos], [apos],
      by simp [pyRepr]⟩

/-- Claim C9: `normalize_text` is total — for every parameterization of the
external language capabilities, every input string and every language tag it
returns a string and never an error, because the profile's transliteration
field can only hold one of the three table ids that `transliterate` accepts. -/
theorem normalize_text_total (ms : String → String)
    (il : String → List String → Bool) (text : List Char) (L : String) :
    ∃ y, normalize_text ms il text L = Except.ok y := by
  rw [normalize_text_eq_pipeline]
  rcases get_language_info_transliteration_cases ms il L with h | h | h | h <;>
    simp [translitStep, h, transliterate, Except.map]

/-- Claim C10: the duplicated `Ә`/`ә` keys in the base table dict literal
resolve to the later Kazakh-style entries, and the Azerbaijani overrides do
not restore them, so both az-Latn and sr-Latn transliterate the Cyrillic
schwa to `A'`/`a'` rather than to `Ə`/`ə`. -/
theorem transliterate_cyrillic_schwa_override :
    transliterate ("az-Latn") ['ә'] = Except.ok (['a', apos])
    ∧ transliterate ("sr-Latn") ['ә'] = Except.ok (['a', apos])
    ∧ transliterate ("az-Latn") ['Ә'] = Except.ok (['A', apos])
    ∧ transliterate ("sr-Latn") ['Ә'] = Except.ok (['A', apos])
    ∧ dictGet SR_LATN_TABLE 'ә' = some (['a', apos]) := by
  decide
